import Mathlib

/-!
Verification of the Logiscool catch-up tracker (`src/logiscool_app.py`).

The development shallowly embeds the application's persistent store (the two
SQLite tables `students` and `catchups`) as Lean lists, and each HTTP route
handler as a Lean function over that store.  Machinery the handlers rely on is
modelled at the same level of detail the handlers use it:

* `ORDER BY c.date` on a TEXT column is SQLite BINARY collation, i.e. memcmp
  order on the UTF-8 bytes; on UTF-8 this coincides with code-point
  lexicographic order, modelled by `lexLt`/`strLe` and a stable sort.
* `datetime.strptime(date_str, "%Y-%m-%d")` is modelled by `parseYMD`:
  CPython's `_strptime` matches `%Y` as exactly four digits, `%m` as
  `1[0-2]|0[1-9]|[1-9]` and `%d` as `3[01]|[12]\d|0[1-9]|[1-9]` (so one- or
  two-digit months and days are accepted without zero padding), then the
  `datetime` constructor rejects year 0 and days beyond the month length.
* `strftime("%Y-%m")` prints the year unpadded (glibc) and the month
  zero-padded, modelled by `monthKeyOf`; `strftime("%B %Y")` prints the
  English month name, modelled via `monthBName`.
* `defaultdict(list)` accumulation preserves key insertion order (Python
  dicts are ordered), modelled by `insertGroup`/`groupPairs`.
* `csv.writer` (default dialect) writes each row comma-separated with
  minimal quoting and a `\r\n` terminator, modelled by `csvLine`/`csvText`.
-/

namespace Logiscool

/-- Billing tier for a 1-based sequence position.  The source inlines this as
`"Free" if i <= 2 else "Charge"` (lines 98, 141 and 180 of
`logiscool_app.py`). -/
def tierFor (i : Nat) : String := if i ≤ 2 then "Free" else "Charge"

/-- Strict lexicographic (memcmp) order on char lists, the order SQLite's
BINARY collation gives TEXT values under `ORDER BY`. -/
def lexLt : List Char → List Char → Bool
  | [], [] => false
  | [], _ :: _ => true
  | _ :: _, [] => false
  | a :: as, b :: bs =>
    if a.toNat < b.toNat then true
    else if b.toNat < a.toNat then false
    else lexLt as bs

/-- Non-strict memcmp order on strings (`a <= b` in SQLite BINARY collation). -/
def strLe (a b : String) : Bool := ! lexLt b.data a.data

/-- Numeric value of a decimal digit character. -/
def digitVal (c : Char) : Nat := c.toNat - 48

/-- Value of a string of decimal digits. -/
def digitsToNat (s : List Char) : Nat := s.foldl (fun n c => n * 10 + digitVal c) 0

/-- Split a char list on the `-` character, keeping empty pieces
(the separator structure `strptime`'s format `%Y-%m-%d` imposes). -/
def splitDash : List Char → List (List Char)
  | [] => [[]]
  | c :: cs =>
    if c = '-' then [] :: splitDash cs
    else
      match splitDash cs with
      | [] => [[c]]
      | p :: ps => (c :: p) :: ps

/-- Gregorian leap-year rule used by `datetime`. -/
def isLeapYear (y : Nat) : Bool := y % 4 == 0 && (y % 100 != 0 || y % 400 == 0)

/-- Length of a month as `datetime` validates it. -/
def daysInMonth (y m : Nat) : Nat :=
  if m == 2 then (if isLeapYear y then 29 else 28)
  else if m == 4 || m == 6 || m == 9 || m == 11 then 30 else 31

/-- CPython `strptime` field for `%Y`: exactly four ASCII digits. -/
def yearField (s : List Char) : Bool := s.length == 4 && s.all Char.isDigit

/-- CPython `strptime` field for `%m`: the regex `1[0-2]|0[1-9]|[1-9]`, i.e.
one or two digits whose value is between 1 and 12. -/
def monthField (s : List Char) : Bool :=
  (s.length == 1 || s.length == 2) && s.all Char.isDigit
    && decide (1 ≤ digitsToNat s) && decide (digitsToNat s ≤ 12)

/-- CPython `strptime` field for `%d`: the regex `3[01]|[12]\d|0[1-9]|[1-9]`,
i.e. one or two digits whose value is between 1 and 31. -/
def dayField (s : List Char) : Bool :=
  (s.length == 1 || s.length == 2) && s.all Char.isDigit
    && decide (1 ≤ digitsToNat s) && decide (digitsToNat s ≤ 31)

/-- Model of `datetime.strptime(s, "%Y-%m-%d")`: `some (y, m, d)` when the
string parses, `none` when the call would raise `ValueError` (either the
regex does not match or the `datetime` constructor rejects the values). -/
def parseYMD (s : String) : Option (Nat × Nat × Nat) :=
  match splitDash s.data with
  | [ys, ms, ds] =>
    if yearField ys && monthField ms && dayField ds then
      let y := digitsToNat ys
      let m := digitsToNat ms
      let d := digitsToNat ds
      if 1 ≤ y ∧ d ≤ daysInMonth y m then some (y, m, d) else none
    else none
  | _ => none

/-- Model of `datetime.strptime(s, "%Y-%m")` (used on the month keys of the
full CSV report). -/
def parseYM (s : String) : Option (Nat × Nat) :=
  match splitDash s.data with
  | [ys, ms] =>
    if yearField ys && monthField ms then
      (if 1 ≤ digitsToNat ys then some (digitsToNat ys, digitsToNat ms) else none)
    else none
  | _ => none

/-- Month number zero-padded to two characters, as `strftime("%m")` prints it. -/
def pad2 (n : Nat) : String := if n < 10 then "0" ++ toString n else toString n

/-- Model of `datetime.strptime(s, "%Y-%m-%d").strftime("%Y-%m")`: the month
key of a date string (glibc prints `%Y` unpadded), or `none` when parsing
raises. -/
def monthKeyOf (s : String) : Option String :=
  (parseYMD s).map (fun ymd => toString ymd.1 ++ "-" ++ pad2 ymd.2.1)

/-- English month names as `strftime("%B")` prints them in the C locale. -/
def monthBName (m : Nat) : String :=
  match m with
  | 1 => "January" | 2 => "February" | 3 => "March" | 4 => "April"
  | 5 => "May" | 6 => "June" | 7 => "July" | 8 => "August"
  | 9 => "September" | 10 => "October" | 11 => "November" | 12 => "December"
  | _ => ""

/-- A row of the `students` table: `id INTEGER PRIMARY KEY AUTOINCREMENT`,
`name TEXT UNIQUE`. -/
structure StudentRow where
  id : Nat
  name : String
deriving DecidableEq

/-- A row of the `catchups` table: `id`, `student_id`, `date TEXT`,
`lesson_missed TEXT`. -/
structure CatchupRow where
  id : Nat
  student_id : Nat
  date : String
  lesson_missed : String
deriving DecidableEq

/-- The persistent store: both tables in rowid (insertion) order, plus the
AUTOINCREMENT counters. -/
structure DB where
  students : List StudentRow
  catchups : List CatchupRow
  next_student_id : Nat
  next_catchup_id : Nat
deriving DecidableEq

/-- `POST /students`: `INSERT OR IGNORE INTO students (name) VALUES (?)`,
then return `{"message": "Student added"}` unconditionally. -/
def add_student (db : DB) (name : String) : DB × String :=
  if db.students.any (fun s => s.name == name) then (db, "Student added")
  else
    ({ db with
        students := db.students ++ [{ id := db.next_student_id, name := name }],
        next_student_id := db.next_student_id + 1 },
      "Student added")

/-- `GET /students`: `SELECT id, name FROM students`. -/
def list_students (db : DB) : List (Nat × String) :=
  db.students.map (fun s => (s.id, s.name))

/-- `POST /catchups`: unconditional
`INSERT INTO catchups (student_id, date, lesson_missed) VALUES (?, ?, ?)`. -/
def add_catchup (db : DB) (student_id : Nat) (date lesson_missed : String) : DB × String :=
  ({ db with
      catchups := db.catchups ++
        [{ id := db.next_catchup_id, student_id := student_id,
           date := date, lesson_missed := lesson_missed }],
      next_catchup_id := db.next_catchup_id + 1 },
    "Catch-up recorded")

/-- `SELECT id FROM students WHERE name=?` followed by `fetchone()`. -/
def findStudentByName (db : DB) (name : String) : Option Nat :=
  (db.students.find? (fun s => s.name == name)).map (fun s => s.id)

/-- `SELECT date, lesson_missed FROM catchups WHERE student_id=?`
(storage order, i.e. insertion order). -/
def studentCatchups (db : DB) (sid : Nat) : List CatchupRow :=
  db.catchups.filter (fun c => c.student_id == sid)

/-- One entry of the `GET /catchups/by_name/{name}` response. -/
structure ChargeRow where
  catchup_no : Nat
  date : String
  lesson_missed : String
  charge : String
deriving DecidableEq

/-- `GET /catchups/by_name/{student_name}`: empty list when the name does not
resolve, otherwise the student's rows enumerated from 1 with the inline
`"Free" if i <= 2 else "Charge"` tier. -/
def list_catchups_by_name (db : DB) (name : String) : List ChargeRow :=
  match findStudentByName db name with
  | none => []
  | some sid =>
    (List.enumFrom 1 (studentCatchups db sid)).map
      (fun p => { catchup_no := p.1, date := p.2.date,
                  lesson_missed := p.2.lesson_missed, charge := tierFor p.1 })

/-- One row of
`SELECT s.name, c.date, c.student_id, c.lesson_missed FROM students s JOIN
catchups c ON s.id = c.student_id`. -/
structure JoinedRow where
  name : String
  date : String
  student_id : Nat
  lesson_missed : String
deriving DecidableEq

/-- The inner join of `catchups` with `students` (a catch-up row whose
`student_id` matches no student is dropped), before sorting. -/
def joinedRows (db : DB) : List JoinedRow :=
  db.catchups.filterMap (fun c =>
    (db.students.find? (fun s => s.id == c.student_id)).map
      (fun s => { name := s.name, date := c.date,
                  student_id := c.student_id, lesson_missed := c.lesson_missed }))

/-- Date comparison used by `ORDER BY c.date` on the joined rows. -/
def dateLeJ (a b : JoinedRow) : Prop := strLe a.date b.date = true

instance decDateLeJ : DecidableRel dateLeJ :=
  fun a b => inferInstanceAs (Decidable (strLe a.date b.date = true))

/-- The joined rows in `ORDER BY c.date` order (a stable sort by the date
string under BINARY collation). -/
def sortedJoined (db : DB) : List JoinedRow :=
  List.insertionSort dateLeJ (joinedRows db)

/-- `monthly[k].append(v)` on a `defaultdict(list)`: append to the existing
group for `k` if there is one, otherwise add a new group at the end (Python
dicts keep key insertion order). -/
def insertGroup {α : Type} (acc : List (String × List α)) (k : String) (v : α) :
    List (String × List α) :=
  match acc with
  | [] => [(k, [v])]
  | (k0, vs) :: rest =>
    if k0 == k then (k0, vs ++ [v]) :: rest else (k0, vs) :: insertGroup rest k v

/-- Fold a keyed row sequence into month groups, as the loops over
`monthly_catchups` / `monthly_data` do. -/
def groupPairs {α : Type} (acc : List (String × List α)) :
    List (String × α) → List (String × List α)
  | [] => acc
  | p :: ps => groupPairs (insertGroup acc p.1 p.2) ps

/-- Run a fallible computation over a list; `none` as soon as any element
fails, modelling an exception escaping a `for` loop. -/
def optTraverse {α β : Type} (f : α → Option β) : List α → Option (List β)
  | [] => some []
  | x :: xs =>
    match f x, optTraverse f xs with
    | some y, some ys => some (y :: ys)
    | _, _ => none

/-- Attach its month key to a joined row (raises, i.e. `none`, on a malformed
date). -/
def keyJoined (r : JoinedRow) : Option (String × JoinedRow) :=
  (monthKeyOf r.date).map (fun k => (k, r))

/-- `GET /catchups/all`: the date-sorted joined rows grouped into a mapping
from month key to the `(name, date, student_id, lesson_missed)` tuples of
that month; `none` when a date fails to parse and the request errors out. -/
def list_all_catchups (db : DB) : Option (List (String × List JoinedRow)) :=
  (optTraverse keyJoined (sortedJoined db)).map (groupPairs [])

/-- An HTTP response as the download routes produce it: `StreamingResponse`
defaults to status 200; `headers` holds the explicitly supplied headers. -/
structure HTTPResponse where
  status_code : Nat
  media_type : String
  headers : List (String × String)
  body : String
deriving DecidableEq

/-- Does `csv.writer` (default dialect, minimal quoting) need to quote this
field? -/
def needsQuote (s : String) : Bool :=
  s.data.any (fun c => c == ',' || c == '"' || c == '\n' || c == '\r')

/-- A CSV field as `csv.writer` renders it (quotes doubled inside a quoted
field). -/
def csvField (s : String) : String :=
  if needsQuote s then
    "\"" ++ (⟨s.data.foldr (fun c acc => if c = '"' then '"' :: '"' :: acc else c :: acc) []⟩ : String) ++ "\""
  else s

/-- One `writer.writerow(cells)` call: comma-separated fields and a `\r\n`
terminator. -/
def csvLine (cells : List String) : String :=
  String.intercalate "," (cells.map csvField) ++ "\r\n"

/-- The text a sequence of `writerow` calls accumulates in the `StringIO`
buffer. -/
def csvText (rows : List (List String)) : String :=
  String.join (rows.map csvLine)

/-- `student_name.replace(" ", "_")` (single-character pattern, so a per-char
map). -/
def underscoreSpaces (s : String) : String :=
  ⟨s.data.map (fun c => if c = ' ' then '_' else c)⟩

/-- The `writerow` calls of `GET /catchups/download/by_name/{name}` when the
name resolves: a one-line title, the column header, then one row per
catch-up with the inline tier; `none` when the name does not resolve. -/
def byNameCsvRows (db : DB) (student_name : String) : Option (List (List String)) :=
  match findStudentByName db student_name with
  | none => none
  | some sid =>
    some (["Catch-up Tracker Report for " ++ student_name]
      :: ["Catch-up Number", "Date", "Lesson Missed", "Status"]
      :: (List.enumFrom 1 (studentCatchups db sid)).map
           (fun p => [toString p.1, p.2.date, p.2.lesson_missed, tierFor p.1]))

/-- `GET /catchups/download/by_name/{student_name}`: plain text
`"Student not found."` for an unknown name, otherwise the CSV attachment. -/
def download_catchups_by_name (db : DB) (student_name : String) : HTTPResponse :=
  match byNameCsvRows db student_name with
  | none =>
    { status_code := 200, media_type := "text/plain", headers := [],
      body := "Student not found." }
  | some rows =>
    { status_code := 200, media_type := "text/csv",
      headers := [("Content-Disposition",
        "attachment; filename=catchups_report_" ++ underscoreSpaces student_name ++ ".csv")],
      body := csvText rows }

/-- One row of `SELECT s.name, c.date, c.lesson_missed FROM students s JOIN
catchups c ON s.id = c.student_id` (the full-report query). -/
structure Entry3 where
  name : String
  date : String
  lesson_missed : String
deriving DecidableEq

/-- Projection of the four-column join onto the full-report columns. -/
def entry3Of (r : JoinedRow) : Entry3 :=
  { name := r.name, date := r.date, lesson_missed := r.lesson_missed }

/-- The full-report query result: same join, same `ORDER BY c.date`. -/
def allEntries (db : DB) : List Entry3 :=
  (sortedJoined db).map entry3Of

/-- Attach its month key to a full-report row. -/
def keyEntry (e : Entry3) : Option (String × Entry3) :=
  (monthKeyOf e.date).map (fun k => (k, e))

/-- The `monthly_data` grouping of `GET /catchups/download/all`. -/
def downloadAllGroups (db : DB) : Option (List (String × List Entry3)) :=
  (optTraverse keyEntry (allEntries db)).map (groupPairs [])

/-- The per-month data rows of the full report: `student_catchup_count` is a
`defaultdict(int)` keyed by student name, incremented per row, and the tier
compares the updated in-month count against 2. -/
def monthSectionRows (cnt : String → Nat) : List Entry3 → List (List String)
  | [] => []
  | e :: rest =>
    [e.name, e.date, e.lesson_missed, tierFor (cnt e.name + 1)]
      :: monthSectionRows (fun s => if s = e.name then cnt e.name + 1 else cnt s) rest

/-- One month section of the full report: the `Month:` line (via
`strptime(month_key, "%Y-%m").strftime("%B %Y")`), the column header, the
data rows, then one blank row. -/
def sectionFor (k : String) (entries : List Entry3) : Option (List (List String)) :=
  (parseYM k).map (fun ym =>
    ["Month: " ++ monthBName ym.2 ++ " " ++ toString ym.1]
      :: ["Student Name", "Catch-up Date", "Lesson Missed", "Status"]
      :: (monthSectionRows (fun _ => 0) entries ++ [[]]))

/-- All `writerow` calls of `GET /catchups/download/all`, in order; `none`
when a date fails to parse and the request errors out. -/
def downloadAllRows (db : DB) : Option (List (List String)) :=
  match downloadAllGroups db with
  | none => none
  | some groups =>
    match optTraverse (fun g => sectionFor g.1 g.2) groups with
    | none => none
    | some sections =>
      some (["Catch-up Tracker - Full Report"] :: [] :: sections.flatten)

/-- `GET /catchups/download/all` as an HTTP response. -/
def download_all_catchups (db : DB) : Option HTTPResponse :=
  (downloadAllRows db).map (fun rows =>
    { status_code := 200, media_type := "text/csv",
      headers := [("Content-Disposition",
        "attachment; filename=all_catchups_monthly_report.csv")],
      body := csvText rows })

/-- Route handler for `POST /students`, threading the store state. -/
def add_student_route (db : DB) (name : String) : DB × String :=
  add_student db name

/-- Route handler for `GET /students`: only `SELECT` statements run, so the
store component is passed through. -/
def list_students_route (db : DB) : DB × List (Nat × String) :=
  (db, list_students db)

/-- Route handler for `POST /catchups`. -/
def add_catchup_route (db : DB) (student_id : Nat) (date lesson_missed : String) :
    DB × String :=
  add_catchup db student_id date lesson_missed

/-- Route handler for `GET /catchups/by_name/{name}` (read-only). -/
def list_catchups_by_name_route (db : DB) (name : String) : DB × List ChargeRow :=
  (db, list_catchups_by_name db name)

/-- Route handler for `GET /catchups/all` (read-only). -/
def list_all_catchups_route (db : DB) : DB × Option (List (String × List JoinedRow)) :=
  (db, list_all_catchups db)

/-- Route handler for `GET /catchups/download/by_name/{name}` (read-only). -/
def download_by_name_route (db : DB) (name : String) : DB × HTTPResponse :=
  (db, download_catchups_by_name db name)

/-- Route handler for `GET /catchups/download/all` (read-only). -/
def download_all_route (db : DB) : DB × Option HTTPResponse :=
  (db, download_all_catchups db)

/-- Modelled from the spec: a strict ISO calendar date string of the form
`YYYY-MM-DD` (four-digit year from 0001, zero-padded two-digit month 01-12
and two-digit day valid for that month).  This is the specification's notion
of a well-formed date, written independently of `parseYMD` so the two can be
compared. -/
def specISODate (s : String) : Bool :=
  match splitDash s.data with
  | [ys, ms, ds] =>
    ys.length == 4 && ys.all Char.isDigit
      && ms.length == 2 && ms.all Char.isDigit
      && ds.length == 2 && ds.all Char.isDigit
      && decide (1 ≤ digitsToNat ys)
      && decide (1 ≤ digitsToNat ms) && decide (digitsToNat ms ≤ 12)
      && decide (1 ≤ digitsToNat ds)
      && decide (digitsToNat ds ≤ daysInMonth (digitsToNat ys) (digitsToNat ms))
  | _ => false

/-! Order-theoretic facts about the BINARY-collation comparison, needed to
use `List.insertionSort` as the model of `ORDER BY c.date`. -/

theorem char_eq_of_toNat_eq {a b : Char} (h : a.toNat = b.toNat) : a = b :=
  Char.eq_of_val_eq (UInt32.toNat.inj h)

theorem lexLt_cons_iff {x y : Char} {as bs : List Char} :
    lexLt (x :: as) (y :: bs) = true ↔
      x.toNat < y.toNat ∨ (x.toNat = y.toNat ∧ lexLt as bs = true) := by
  simp only [lexLt]
  split_ifs with h1 h2
  · simp [h1]
  · have hne : x.toNat ≠ y.toNat := by omega
    simp [h1, hne]
  · have heq : x.toNat = y.toNat := by omega
    simp [h1, heq]

theorem lexLt_trans : ∀ (a b c : List Char),
    lexLt a b = true → lexLt b c = true → lexLt a c = true := by
  intro a
  induction a with
  | nil =>
    intro b c hab hbc
    cases b with
    | nil => simp [lexLt] at hab
    | cons y bs =>
      cases c with
      | nil => simp [lexLt] at hbc
      | cons z cs => simp [lexLt]
  | cons x as ih =>
    intro b c hab hbc
    cases b with
    | nil => simp [lexLt] at hab
    | cons y bs =>
      cases c with
      | nil => simp [lexLt] at hbc
      | cons z cs =>
        rw [lexLt_cons_iff] at hab hbc ⊢
        rcases hab with h1 | ⟨h1, h1t⟩ <;> rcases hbc with h2 | ⟨h2, h2t⟩
        · exact Or.inl (Nat.lt_trans h1 h2)
        · exact Or.inl (h2 ▸ h1)
        · exact Or.inl (h1 ▸ h2)
        · exact Or.inr ⟨h1.trans h2, ih bs cs h1t h2t⟩

theorem lexLt_asymm : ∀ (a b : List Char),
    lexLt a b = true → lexLt b a = true → False := by
  intro a
  induction a with
  | nil =>
    intro b hab hba
    cases b with
    | nil => simp [lexLt] at hab
    | cons y bs => simp [lexLt] at hba
  | cons x as ih =>
    intro b hab hba
    cases b with
    | nil => simp [lexLt] at hab
    | cons y bs =>
      rw [lexLt_cons_iff] at hab hba
      rcases hab with h1 | ⟨h1, h1t⟩ <;> rcases hba with h2 | ⟨h2, h2t⟩ <;> try omega
      exact ih bs h1t h2t

theorem lexLt_eq_of_both_false : ∀ (a b : List Char),
    lexLt a b = false → lexLt b a = false → a = b := by
  intro a
  induction a with
  | nil =>
    intro b hab _
    cases b with
    | nil => rfl
    | cons y bs => simp [lexLt] at hab
  | cons x as ih =>
    intro b hab hba
    cases b with
    | nil => simp [lexLt] at hba
    | cons y bs =>
      have hab2 : ¬ lexLt (x :: as) (y :: bs) = true := by simp [hab]
      have hba2 : ¬ lexLt (y :: bs) (x :: as) = true := by simp [hba]
      rw [lexLt_cons_iff] at hab2 hba2
      push_neg at hab2 hba2
      have hxy : x.toNat = y.toNat := by omega
      have htails : as = bs := by
        apply ih
        · have := hab2.2 hxy
          simp [this]
        · have := hba2.2 hxy.symm
          simp [this]
      rw [char_eq_of_toNat_eq hxy, htails]

instance : IsTotal JoinedRow dateLeJ := by
  constructor
  intro a b
  unfold dateLeJ strLe
  cases h1 : lexLt b.date.data a.date.data
  · simp
  · cases h2 : lexLt a.date.data b.date.data
    · simp
    · exact absurd (lexLt_asymm _ _ h1 h2) not_false

instance : IsTrans JoinedRow dateLeJ := by
  constructor
  intro a b c hab hbc
  unfold dateLeJ strLe at hab hbc ⊢
  simp only [Bool.not_eq_true', Bool.not_eq_false] at hab hbc ⊢
  cases hca : lexLt c.date.data a.date.data
  · rfl
  · exfalso
    cases hab2 : lexLt a.date.data b.date.data
    · have : a.date.data = b.date.data := lexLt_eq_of_both_false _ _ hab2 hab
      rw [this] at hca
      simp [hca] at hbc
    · have := lexLt_trans _ _ _ hca hab2
      simp [this] at hbc

/-! Claim C1: by-student report tiering. -/

/-- C1: for a registered student, the row at 0-based index `n` of
`GET /catchups/by_name/{name}` reports the date and lesson of the student's
`(n+1)`-st recorded catch-up (creation order), carries
`catchup_no = n + 1`, and its charge is the tier of position `n + 1`,
which is `"Free"` exactly when `n + 1 ≤ 2`. -/
theorem c1_by_name_tiering (db : DB) (name : String) (sid : Nat)
    (hs : findStudentByName db name = some sid)
    (n : Nat) (h : n < (studentCatchups db sid).length) :
    (list_catchups_by_name db name)[n]? =
      some { catchup_no := n + 1,
             date := ((studentCatchups db sid).get ⟨n, h⟩).date,
             lesson_missed := ((studentCatchups db sid).get ⟨n, h⟩).lesson_missed,
             charge := tierFor (n + 1) }
    ∧ (tierFor (n + 1) = "Free" ↔ n + 1 ≤ 2) := by
  constructor
  · simp only [list_catchups_by_name, hs, List.getElem?_map, List.getElem?_enumFrom,
      List.getElem?_eq_getElem h, Option.map_some]
    simp [Nat.add_comm, List.get_eq_getElem]
  · unfold tierFor
    by_cases h2 : n + 1 ≤ 2
    · simp [h2]
    · simp [h2, show ("Charge" : String) ≠ "Free" from by decide]

/-- Store with student Ana and her three catch-ups, the specification's
end-to-end example. -/
def dbEx : DB :=
  { students := [{ id := 1, name := "Ana" }],
    catchups := [{ id := 1, student_id := 1, date := "2024-03-01", lesson_missed := "L1" },
                 { id := 2, student_id := 1, date := "2024-03-15", lesson_missed := "L2" },
                 { id := 3, student_id := 1, date := "2024-03-20", lesson_missed := "L3" }],
    next_student_id := 2, next_catchup_id := 4 }

/-- Witness for C1: Ana's third catch-up is row 3 and is charged. -/
theorem c1_witness :
    (list_catchups_by_name dbEx "Ana")[2]? =
      some { catchup_no := 3, date := "2024-03-20", lesson_missed := "L3", charge := "Charge" }
    ∧ (tierFor 3 = "Free" ↔ 3 ≤ 2) :=
  ⟨((c1_by_name_tiering dbEx "Ana" 1 (by decide) 2 (by decide)).1).trans (by decide),
   (c1_by_name_tiering dbEx "Ana" 1 (by decide) 2 (by decide)).2⟩

/-! Claim C3: idempotent student creation. -/

/-- C3: on a store whose student names are unique (the `UNIQUE` constraint),
creating a name leaves exactly one student record with that name, a second
identical create changes nothing, and both calls return the same
confirmation message. -/
theorem c3_add_student_idempotent (db : DB) (name : String)
    (hnd : (db.students.map StudentRow.name).Nodup) :
    ((add_student db name).1.students.filter (fun s => s.name == name)).length = 1
    ∧ (add_student (add_student db name).1 name).1 = (add_student db name).1
    ∧ (add_student db name).2 = "Student added"
    ∧ (add_student (add_student db name).1 name).2 = "Student added" := by
  have hcount : ∀ l : List StudentRow,
      (l.filter (fun s => s.name == name)).length = List.countP (fun s => s.name == name) l :=
    fun l => (List.countP_eq_length_filter _ l).symm
  have hstep_pos : ∀ d : DB, d.students.any (fun s => s.name == name) = true →
      add_student d name = (d, "Student added") := by
    intro d hd
    unfold add_student
    rw [if_pos hd]
  have hstep_neg : ∀ d : DB, d.students.any (fun s => s.name == name) = false →
      add_student d name =
        ({ d with
            students := d.students ++ [{ id := d.next_student_id, name := name }],
            next_student_id := d.next_student_id + 1 }, "Student added") := by
    intro d hd
    unfold add_student
    rw [if_neg (by simp [hd])]
  by_cases hex : db.students.any (fun s => s.name == name) = true
  · have h1 := hstep_pos db hex
    have hle : List.countP (fun s => s.name == name) db.students ≤ 1 := by
      have h2 : List.count name (db.students.map StudentRow.name) ≤ 1 :=
        List.nodup_iff_count_le_one.mp hnd name
      rwa [List.count_eq_countP, List.countP_map] at h2
    have hpos : 0 < List.countP (fun s => s.name == name) db.students := by
      rw [List.countP_pos_iff]
      exact List.any_eq_true.mp hex
    refine ⟨?_, ?_, ?_, ?_⟩
    · have hsame : (add_student db name).1.students = db.students := by rw [h1]
      rw [hsame, hcount]
      omega
    · rw [h1]
      exact congrArg Prod.fst (hstep_pos db hex)
    · rw [h1]
    · rw [h1]
      exact congrArg Prod.snd (hstep_pos db hex)
  · have hexf : db.students.any (fun s => s.name == name) = false := by
      cases h : db.students.any (fun s => s.name == name)
      · rfl
      · exact absurd h hex
    have hzero : List.countP (fun s => s.name == name) db.students = 0 := by
      rw [List.countP_eq_zero]
      intro s hs hps
      exact hex (List.any_eq_true.mpr ⟨s, hs, hps⟩)
    have h1 := hstep_neg db hexf
    have hmem : (db.students ++
        [({ id := db.next_student_id, name := name } : StudentRow)]).any
        (fun s => s.name == name) = true := by
      refine List.any_eq_true.mpr
        ⟨({ id := db.next_student_id, name := name } : StudentRow), ?_, ?_⟩
      · exact List.mem_append_right _ (List.mem_singleton_self _)
      · simp
    refine ⟨?_, ?_, ?_, ?_⟩
    · rw [h1, hcount, List.countP_append, hzero]
      simp
    · rw [h1]
      exact congrArg Prod.fst (hstep_pos _ hmem)
    · rw [h1]
    · rw [h1]
      exact congrArg Prod.snd (hstep_pos _ hmem)

/-- Witness for C3: creating `"Bob"` twice on the example store. -/
theorem c3_witness :
    ((add_student dbEx "Bob").1.students.filter (fun s => s.name == "Bob")).length = 1
    ∧ (add_student (add_student dbEx "Bob").1 "Bob").1 = (add_student dbEx "Bob").1
    ∧ (add_student dbEx "Bob").2 = "Student added"
    ∧ (add_student (add_student dbEx "Bob").1 "Bob").2 = "Student added" :=
  c3_add_student_idempotent dbEx "Bob" (by decide)

/-! Claim C5: by-name report on a name with no catch-up rows. -/

/-- C5: whenever the name resolves to no student, or resolves to a student
with no catch-up rows, `GET /catchups/by_name/{name}` returns the empty
list (never an error). -/
theorem c5_by_name_empty (db : DB) (name : String)
    (h : ∀ sid, findStudentByName db name = some sid → studentCatchups db sid = []) :
    list_catchups_by_name db name = [] := by
  cases hf : findStudentByName db name with
  | none => simp [list_catchups_by_name, hf]
  | some sid => simp [list_catchups_by_name, hf, h sid hf]

/-- Witness for C5: an unregistered name on the example store. -/
theorem c5_witness : list_catchups_by_name dbEx "Nobody" = [] :=
  c5_by_name_empty dbEx "Nobody" (by intro sid hs; simp [show findStudentByName dbEx "Nobody" = none from by decide] at hs)

/-! Claim C6: by-name download for an unknown name. -/

/-- C6: for a name that does not resolve, `GET /catchups/download/by_name/`
returns a 200-status `text/plain` response whose body states the student
was not found, with no `Content-Disposition` (or any other) header and no
CSV structure. -/
theorem c6_download_unknown_plain_text (db : DB) (name : String)
    (h : findStudentByName db name = none) :
    download_catchups_by_name db name =
      { status_code := 200, media_type := "text/plain", headers := [],
        body := "Student not found." } := by
  unfold download_catchups_by_name byNameCsvRows
  rw [h]

/-- Witness for C6 at a concrete unknown name. -/
theorem c6_witness :
    download_catchups_by_name dbEx "Nobody" =
      { status_code := 200, media_type := "text/plain", headers := [],
        body := "Student not found." } :=
  c6_download_unknown_plain_text dbEx "Nobody" (by decide)

/-! Claim C7: the by-name CSV download refines the by-name report. -/

/-- C7: for a registered student, the by-name CSV consists of the one-line
title containing the student's name, the column header row, and then
exactly the rows of `GET /catchups/by_name/{name}` rendered field by field
in the same order (sequence number, date, lesson missed, tier). -/
theorem c7_by_name_csv_refines_report (db : DB) (name : String) (sid : Nat)
    (h : findStudentByName db name = some sid) :
    byNameCsvRows db name =
      some (["Catch-up Tracker Report for " ++ name]
        :: ["Catch-up Number", "Date", "Lesson Missed", "Status"]
        :: (list_catchups_by_name db name).map
             (fun r => [toString r.catchup_no, r.date, r.lesson_missed, r.charge])) := by
  unfold byNameCsvRows list_catchups_by_name
  rw [h]
  simp [List.map_map]

/-- Witness for C7 on the example store. -/
theorem c7_witness :
    byNameCsvRows dbEx "Ana" =
      some (["Catch-up Tracker Report for Ana"]
        :: ["Catch-up Number", "Date", "Lesson Missed", "Status"]
        :: (list_catchups_by_name dbEx "Ana").map
             (fun r => [toString r.catchup_no, r.date, r.lesson_missed, r.charge])) :=
  c7_by_name_csv_refines_report dbEx "Ana" 1 (by decide)

/-! Structure of the `defaultdict(list)` grouping: the group list produced by
`groupPairs` maps each month key, in first-encounter order, to the values of
the pairs carrying that key, in their original order. -/

/-- The keys of a pair list in the order they are first encountered, skipping
keys already `seen`. -/
def firstKeys {α : Type} (seen : List String) : List (String × α) → List String
  | [] => []
  | p :: ps => if p.1 ∈ seen then firstKeys seen ps else p.1 :: firstKeys (p.1 :: seen) ps

theorem firstKeys_congr {α : Type} (ps : List (String × α)) :
    ∀ s1 s2 : List String, (∀ x, x ∈ s1 ↔ x ∈ s2) →
      firstKeys s1 ps = firstKeys s2 ps := by
  induction ps with
  | nil => intro s1 s2 _; rfl
  | cons p ps ih =>
    intro s1 s2 hs
    by_cases hp : p.1 ∈ s1
    · rw [firstKeys, firstKeys, if_pos hp, if_pos ((hs p.1).mp hp)]
      exact ih s1 s2 hs
    · rw [firstKeys, firstKeys, if_neg hp, if_neg (fun h2 => hp ((hs p.1).mpr h2))]
      refine congrArg _ (ih _ _ ?_)
      intro x
      simp only [List.mem_cons]
      exact or_congr Iff.rfl (hs x)

theorem firstKeys_not_mem_seen {α : Type} (ps : List (String × α)) :
    ∀ (seen : List String) (x : String), x ∈ firstKeys seen ps → x ∉ seen := by
  induction ps with
  | nil => intro seen x hx; simp [firstKeys] at hx
  | cons p ps ih =>
    intro seen x hx
    by_cases hp : p.1 ∈ seen
    · rw [firstKeys, if_pos hp] at hx
      exact ih seen x hx
    · rw [firstKeys, if_neg hp] at hx
      rcases List.mem_cons.mp hx with he | ht
      · exact he ▸ hp
      · intro hxs
        exact ih _ x ht (List.mem_cons_of_mem _ hxs)

theorem insertGroup_found {α : Type} (k : String) (v : α) :
    ∀ acc : List (String × List α), k ∈ acc.map Prod.fst → (acc.map Prod.fst).Nodup →
      insertGroup acc k v = acc.map (fun q => if q.1 = k then (q.1, q.2 ++ [v]) else q) := by
  intro acc
  induction acc with
  | nil => intro hmem _; simp at hmem
  | cons q rest ih =>
    intro hmem hnd
    obtain ⟨k0, vs⟩ := q
    rw [List.map_cons] at hmem hnd
    by_cases h0 : k0 = k
    · subst h0
      have hnotin : k0 ∉ rest.map Prod.fst := (List.nodup_cons.mp hnd).1
      have hrest : ∀ r ∈ rest, r.1 ≠ k0 :=
        fun r hr he => hnotin (he ▸ List.mem_map_of_mem Prod.fst hr)
      rw [insertGroup, if_pos (beq_self_eq_true k0), List.map_cons, if_pos rfl]
      refine congrArg _ ?_
      have hid : rest.map (fun q => if q.1 = k0 then (q.1, q.2 ++ [v]) else q) = rest := by
        conv_rhs => rw [← List.map_id rest]
        apply List.map_congr_left
        intro r hr
        rw [if_neg (hrest r hr)]
        rfl
      exact hid.symm
    · have hbeq : ¬ (k0 == k) = true := by simp [h0]
      rw [insertGroup, if_neg hbeq]
      have hmem2 : k ∈ rest.map Prod.fst := by
        rcases List.mem_cons.mp hmem with he | ht
        · exact absurd he.symm h0
        · exact ht
      have hnd2 : (rest.map Prod.fst).Nodup := (List.nodup_cons.mp hnd).2
      rw [ih hmem2 hnd2, List.map_cons, if_neg h0]

theorem insertGroup_fresh {α : Type} (k : String) (v : α) :
    ∀ acc : List (String × List α), k ∉ acc.map Prod.fst →
      insertGroup acc k v = acc ++ [(k, [v])] := by
  intro acc
  induction acc with
  | nil => intro _; rfl
  | cons q rest ih =>
    intro hmem
    obtain ⟨k0, vs⟩ := q
    rw [List.map_cons] at hmem
    have h0 : ¬ (k0 == k) = true := by
      simp only [beq_iff_eq]
      intro he
      exact hmem (he ▸ List.mem_cons_self k0 _)
    have hmem2 : k ∉ rest.map Prod.fst := fun h2 => hmem (List.mem_cons_of_mem _ h2)
    rw [insertGroup, if_neg h0, ih hmem2]
    rfl

theorem groupPairs_eq {α : Type} (ps : List (String × α)) :
    ∀ acc : List (String × List α), (acc.map Prod.fst).Nodup →
      groupPairs acc ps =
        acc.map (fun q => (q.1, q.2 ++ (ps.filter (fun p => p.1 == q.1)).map Prod.snd))
          ++ (firstKeys (acc.map Prod.fst) ps).map
               (fun k => (k, (ps.filter (fun p => p.1 == k)).map Prod.snd)) := by
  induction ps with
  | nil =>
    intro acc _
    rw [groupPairs, firstKeys]
    simp
  | cons p ps ih =>
    intro acc hnd
    rw [groupPairs]
    by_cases hp : p.1 ∈ acc.map Prod.fst
    · rw [insertGroup_found p.1 p.2 acc hp hnd]
      have hkeys : (acc.map (fun q => if q.1 = p.1 then (q.1, q.2 ++ [p.2]) else q)).map Prod.fst
          = acc.map Prod.fst := by
        rw [List.map_map]
        apply List.map_congr_left
        intro q _
        by_cases hq1 : q.1 = p.1 <;> simp [hq1]
      rw [ih _ (by rw [hkeys]; exact hnd), hkeys]
      congr 1
      · rw [List.map_map]
        apply List.map_congr_left
        intro q _
        by_cases hq1 : q.1 = p.1
        · have hcond : (p.1 == q.1) = true := by simp [hq1]
          simp [Function.comp, hq1, List.filter_cons, hcond, List.append_assoc]
        · have hcond : (p.1 == q.1) = false := by
            simp only [beq_eq_false_iff_ne]
            exact fun he => hq1 he.symm
          simp [Function.comp, hq1, List.filter_cons, hcond]
      · rw [show firstKeys (acc.map Prod.fst) (p :: ps) = firstKeys (acc.map Prod.fst) ps from by
          rw [firstKeys, if_pos hp]]
        apply List.map_congr_left
        intro k hk
        have hkne : k ≠ p.1 := by
          intro he
          exact firstKeys_not_mem_seen ps _ k hk (he ▸ hp)
        have hcond : (p.1 == k) = false := by
          simp only [beq_eq_false_iff_ne]
          exact fun he => hkne he.symm
        rw [List.filter_cons, hcond]
        simp
    · rw [insertGroup_fresh p.1 p.2 acc hp]
      have hkeys2 : ((acc ++ [(p.1, [p.2])]).map Prod.fst) = acc.map Prod.fst ++ [p.1] := by
        simp
      have hnd2 : (((acc ++ [(p.1, [p.2])]).map Prod.fst)).Nodup := by
        rw [hkeys2]
        simp [List.nodup_append, hnd, hp]
      rw [ih _ hnd2, hkeys2, List.map_append, firstKeys, if_neg hp, List.map_cons]
      have hstep1 : acc.map (fun q => (q.1, q.2 ++ (List.filter (fun x => x.1 == q.1) (p :: ps)).map Prod.snd))
          = acc.map (fun q => (q.1, q.2 ++ (List.filter (fun x => x.1 == q.1) ps).map Prod.snd)) := by
        apply List.map_congr_left
        intro q hq
        have hqne : (p.1 == q.1) = false := by
          simp only [beq_eq_false_iff_ne]
          intro he
          exact hp (he ▸ List.mem_map_of_mem Prod.fst hq)
        rw [List.filter_cons, hqne]
        simp
      have hstep3 : (firstKeys (p.1 :: acc.map Prod.fst) ps).map
            (fun k => (k, (List.filter (fun x => x.1 == k) (p :: ps)).map Prod.snd))
          = (firstKeys (acc.map Prod.fst ++ [p.1]) ps).map
            (fun k => (k, (List.filter (fun x => x.1 == k) ps).map Prod.snd)) := by
        rw [firstKeys_congr ps (p.1 :: acc.map Prod.fst) (acc.map Prod.fst ++ [p.1])
          (by intro x; simp [List.mem_cons, List.mem_append, or_comm])]
        apply List.map_congr_left
        intro k hk
        have hkne : (p.1 == k) = false := by
          simp only [beq_eq_false_iff_ne]
          intro he
          exact firstKeys_not_mem_seen ps _ k hk (by simp [he])
        rw [List.filter_cons, hkne]
        simp
      rw [hstep1, List.map_cons, hstep3]
      simp [List.filter_cons, List.append_assoc]

/-- Failure of a fallible loop happens exactly when some element fails. -/
theorem optTraverse_eq_none {α β : Type} (f : α → Option β) :
    ∀ l : List α, optTraverse f l = none ↔ ∃ x ∈ l, f x = none := by
  intro l
  induction l with
  | nil => simp [optTraverse]
  | cons x xs ih =>
    rw [optTraverse]
    cases hx : f x with
    | none => simp [hx]
    | some y =>
      cases hxs : optTraverse f xs with
      | none =>
        simp only [List.exists_mem_cons_iff, hx]
        simpa [hxs] using ih
      | some ys =>
        simp only [List.exists_mem_cons_iff, hx]
        simp [hxs] at ih ⊢
        intro a ha hfa
        exact ih a ha hfa

/-- Keyed pairs produced by a successful traversal: filtering the pairs on a
key and projecting the values equals filtering the rows on that month key. -/
theorem traverse_keyJoined_filter :
    ∀ (rows : List JoinedRow) (keyed : List (String × JoinedRow)),
      optTraverse keyJoined rows = some keyed → ∀ k : String,
        (keyed.filter (fun p => p.1 == k)).map Prod.snd
          = rows.filter (fun r => monthKeyOf r.date == some k) := by
  intro rows
  induction rows with
  | nil =>
    intro keyed h k
    rw [optTraverse] at h
    injection h with h2
    rw [← h2]
    rfl
  | cons r rs ih =>
    intro keyed h k
    rw [optTraverse] at h
    cases hk : keyJoined r with
    | none => rw [hk] at h; exact absurd h (by simp)
    | some pr =>
      rw [hk] at h
      cases hrs : optTraverse keyJoined rs with
      | none => rw [hrs] at h; exact absurd h (by simp)
      | some ks =>
        rw [hrs] at h
        injection h with h2
        subst h2
        unfold keyJoined at hk
        cases hmk : monthKeyOf r.date with
        | none => rw [hmk] at hk; exact absurd hk (by simp)
        | some mk =>
          rw [hmk] at hk
          have hpr : pr = (mk, r) := by
            injection hk with hk2
            exact hk2.symm
          subst hpr
          rw [List.filter_cons, List.filter_cons, hmk]
          have hbeq : ((some mk == some k) = (mk == k)) := rfl
          rw [hbeq]
          cases hmkk : (mk == k)
          · rw [if_neg (by simp), if_neg (by simp)]
            exact ih ks hrs k
          · rw [if_pos rfl, if_pos rfl, List.map_cons, ih ks hrs k]

/-! Claim C4: shape of the `GET /catchups/all` response. -/

/-- C4: when every date parses, `GET /catchups/all` returns the grouping of
the date-sorted joined rows; its month keys appear in first-encounter order
of the date-sorted scan, each key maps to exactly the date-sorted joined
rows of that month (name, date, student id, lesson missed) in date-ascending
order, and the underlying scan itself is date-ascending. -/
theorem c4_all_catchups_grouping (db : DB) (keyed : List (String × JoinedRow))
    (hk : optTraverse keyJoined (sortedJoined db) = some keyed) :
    list_all_catchups db = some (groupPairs [] keyed)
    ∧ (groupPairs [] keyed).map Prod.fst = firstKeys [] keyed
    ∧ (∀ k l, (k, l) ∈ groupPairs [] keyed →
        l = (sortedJoined db).filter (fun r => monthKeyOf r.date == some k)
        ∧ List.Pairwise dateLeJ l)
    ∧ List.Pairwise dateLeJ (sortedJoined db) := by
  have hsorted : List.Pairwise dateLeJ (sortedJoined db) :=
    List.sorted_insertionSort dateLeJ (joinedRows db)
  have hmaster := groupPairs_eq keyed [] (by simp)
  simp only [List.map_nil, List.nil_append] at hmaster
  refine ⟨?_, ?_, ?_, hsorted⟩
  · simp [list_all_catchups, hk]
  · rw [hmaster, List.map_map]
    rw [show (Prod.fst ∘ fun k => (k, (keyed.filter (fun p => p.1 == k)).map Prod.snd)) = id
      from rfl]
    exact List.map_id _
  · intro k l hmem
    rw [hmaster] at hmem
    rcases List.mem_map.mp hmem with ⟨k2, _, heq⟩
    have hkk : k2 = k := congrArg Prod.fst heq
    have hl : l = (keyed.filter (fun p => p.1 == k)).map Prod.snd := by
      have := congrArg Prod.snd heq
      simp only at this
      rw [← this, hkk]
    rw [traverse_keyJoined_filter (sortedJoined db) keyed hk k] at hl
    exact ⟨hl, hl ▸ List.Pairwise.sublist (List.filter_sublist _) hsorted⟩

/-- Store with two calendar months of catch-ups for Ana (two in January 2024
and one in February 2024). -/
def dbMonths : DB :=
  { students := [{ id := 1, name := "Ana" }],
    catchups := [{ id := 1, student_id := 1, date := "2024-01-05", lesson_missed := "P1" },
                 { id := 2, student_id := 1, date := "2024-01-12", lesson_missed := "P2" },
                 { id := 3, student_id := 1, date := "2024-02-03", lesson_missed := "P3" }],
    next_student_id := 2, next_catchup_id := 4 }

/-- The keyed date-sorted joined rows of `dbMonths`. -/
def keyedMonths : List (String × JoinedRow) :=
  [("2024-01", { name := "Ana", date := "2024-01-05", student_id := 1, lesson_missed := "P1" }),
   ("2024-01", { name := "Ana", date := "2024-01-12", student_id := 1, lesson_missed := "P2" }),
   ("2024-02", { name := "Ana", date := "2024-02-03", student_id := 1, lesson_missed := "P3" })]

/-- Witness for C4 on the two-month store. -/
theorem c4_witness :
    list_all_catchups dbMonths = some (groupPairs [] keyedMonths)
    ∧ (groupPairs [] keyedMonths).map Prod.fst = ["2024-01", "2024-02"]
    ∧ [({ name := "Ana", date := "2024-02-03", student_id := 1, lesson_missed := "P3" } : JoinedRow)]
        = (sortedJoined dbMonths).filter (fun r => monthKeyOf r.date == some "2024-02") := by
  have h := c4_all_catchups_grouping dbMonths keyedMonths (by decide)
  refine ⟨h.1, h.2.1.trans (by decide), ?_⟩
  exact (h.2.2.1 "2024-02"
    [({ name := "Ana", date := "2024-02-03", student_id := 1, lesson_missed := "P3" } : JoinedRow)]
    (by decide)).1

/-! Claim C2: month-scoped per-student tiering in the full CSV report. -/

/-- Number of entries of a month group belonging to a given student name. -/
def countName (s : String) (l : List Entry3) : Nat :=
  l.countP (fun e => e.name == s)

/-- The data row emitted for the entry at index `n` of a month group shows
that entry's fields and the tier of `cnt` plus the entry's student's
in-group count up to and including index `n`. -/
theorem monthSectionRows_getElem :
    ∀ (entries : List Entry3) (cnt : String → Nat) (n : Nat) (e : Entry3),
      entries[n]? = some e →
      (monthSectionRows cnt entries)[n]? =
        some [e.name, e.date, e.lesson_missed,
              tierFor (cnt e.name + countName e.name (entries.take (n + 1)))] := by
  intro entries
  induction entries with
  | nil =>
    intro cnt n e he
    simp at he
  | cons e0 rest ih =>
    intro cnt n e he
    cases n with
    | zero =>
      rw [List.getElem?_cons_zero] at he
      injection he with he2
      subst he2
      rw [monthSectionRows, List.getElem?_cons_zero, List.take_succ_cons, List.take_zero]
      simp [countName, List.countP_cons]
    | succ n =>
      rw [List.getElem?_cons_succ] at he
      rw [monthSectionRows, List.getElem?_cons_succ,
        ih (fun s => if s = e0.name then cnt e0.name + 1 else cnt s) n e he]
      have harg : (fun s => if s = e0.name then cnt e0.name + 1 else cnt s) e.name
            + countName e.name (rest.take (n + 1))
          = cnt e.name + countName e.name ((e0 :: rest).take (n + 1 + 1)) := by
        rw [List.take_succ_cons]
        simp only [countName, List.countP_cons]
        by_cases hx : e.name = e0.name
        · rw [if_pos hx, hx, if_pos (beq_self_eq_true e0.name)]
          omega
        · rw [if_neg hx]
          have hb : (e0.name == e.name) = false := by
            simp only [beq_eq_false_iff_ne]
            exact fun h2 => hx h2.symm
          rw [hb]
          simp
      rw [harg]

/-- C2: in a month group of the full CSV report, the row for the entry at
index `n` shows that entry, and its status is the tier of the number of
entries for the same student within that month group up to and including
index `n` (the counter restarts at zero for each month group); the tier is
`"Free"` exactly when that in-month count is at most 2, regardless of the
student's lifetime count. -/
theorem c2_all_csv_month_scoped_tier (db : DB) (groups : List (String × List Entry3))
    (hg : downloadAllGroups db = some groups) (k : String) (entries : List Entry3)
    (hk : (k, entries) ∈ groups) (n : Nat) (e : Entry3) (he : entries[n]? = some e) :
    (monthSectionRows (fun _ => 0) entries)[n]? =
      some [e.name, e.date, e.lesson_missed, tierFor (countName e.name (entries.take (n + 1)))]
    ∧ (tierFor (countName e.name (entries.take (n + 1))) = "Free"
        ↔ countName e.name (entries.take (n + 1)) ≤ 2) := by
  constructor
  · have h := monthSectionRows_getElem entries (fun _ => 0) n e he
    simpa using h
  · unfold tierFor
    by_cases h2 : countName e.name (entries.take (n + 1)) ≤ 2
    · simp [h2]
    · simp [h2, show ("Charge" : String) ≠ "Free" from by decide]

/-- Witness for C2: on the two-month store, the full report shows `Free` for
all three of Ana's catch-ups (two in January, one in February), because the
February group restarts her counter even though it is her third catch-up
overall. -/
theorem c2_witness :
    downloadAllRows dbMonths = some
      [["Catch-up Tracker - Full Report"], [],
       ["Month: January 2024"],
       ["Student Name", "Catch-up Date", "Lesson Missed", "Status"],
       ["Ana", "2024-01-05", "P1", "Free"],
       ["Ana", "2024-01-12", "P2", "Free"], [],
       ["Month: February 2024"],
       ["Student Name", "Catch-up Date", "Lesson Missed", "Status"],
       ["Ana", "2024-02-03", "P3", "Free"], []]
    ∧ (monthSectionRows (fun _ => 0)
          [({ name := "Ana", date := "2024-02-03", lesson_missed := "P3" } : Entry3)])[0]? =
        some ["Ana", "2024-02-03", "P3",
          tierFor (countName "Ana"
            [({ name := "Ana", date := "2024-02-03", lesson_missed := "P3" } : Entry3)])]
    ∧ (tierFor (countName "Ana"
          [({ name := "Ana", date := "2024-02-03", lesson_missed := "P3" } : Entry3)]) = "Free"
        ↔ countName "Ana"
            [({ name := "Ana", date := "2024-02-03", lesson_missed := "P3" } : Entry3)] ≤ 2) := by
  have h := c2_all_csv_month_scoped_tier dbMonths
    [("2024-01", [{ name := "Ana", date := "2024-01-05", lesson_missed := "P1" },
                  { name := "Ana", date := "2024-01-12", lesson_missed := "P2" }]),
     ("2024-02", [{ name := "Ana", date := "2024-02-03", lesson_missed := "P3" }])]
    (by decide) "2024-02"
    [{ name := "Ana", date := "2024-02-03", lesson_missed := "P3" }]
    (by decide) 0 { name := "Ana", date := "2024-02-03", lesson_missed := "P3" } (by decide)
  exact ⟨by decide, h.1, h.2⟩

/-! Claim C8: which dates make `GET /catchups/all` fail. -/

/-- Store holding one joined catch-up whose date `2024-3-1` is not of the
strict `YYYY-MM-DD` form. -/
def dbBadDate : DB :=
  { students := [{ id := 1, name := "Ana" }],
    catchups := [{ id := 1, student_id := 1, date := "2024-3-1", lesson_missed := "L1" }],
    next_student_id := 2, next_catchup_id := 2 }

/-- C8 as stated is false: the joined date `2024-3-1` is not a valid ISO
`YYYY-MM-DD` date, yet `GET /catchups/all` succeeds on it, because
`strptime` also accepts unpadded one-digit months and days. -/
theorem c8_counterexample :
    (∃ r ∈ joinedRows dbBadDate, specISODate r.date = false)
    ∧ (list_all_catchups dbBadDate).isSome = true := by decide

/-- C8 amended: `GET /catchups/all` fails exactly when some catch-up row
joined to a student has a date rejected by `strptime("%Y-%m-%d")` (four-digit
year from 0001, one- or two-digit month and day forming a valid calendar
date); every strict ISO `YYYY-MM-DD` calendar date is accepted, so the
request succeeds whenever all joined dates are well-formed. -/
theorem c8_malformed_date_failure (db : DB) :
    (list_all_catchups db = none ↔ ∃ r ∈ joinedRows db, parseYMD r.date = none)
    ∧ (∀ s : String, specISODate s = true → (parseYMD s).isSome = true) := by
  constructor
  · rw [list_all_catchups]
    constructor
    · intro h
      have ht : optTraverse keyJoined (sortedJoined db) = none := by
        cases ht2 : optTraverse keyJoined (sortedJoined db)
        · rfl
        · rw [ht2] at h
          exact absurd h (by simp)
      rcases (optTraverse_eq_none keyJoined (sortedJoined db)).mp ht with ⟨r, hr, hfr⟩
      refine ⟨r, (List.perm_insertionSort dateLeJ (joinedRows db)).subset hr, ?_⟩
      unfold keyJoined at hfr
      cases hmk : monthKeyOf r.date with
      | none =>
        unfold monthKeyOf at hmk
        cases hp : parseYMD r.date
        · rfl
        · rw [hp] at hmk
          exact absurd hmk (by simp)
      | some mk => rw [hmk] at hfr; exact absurd hfr (by simp)
    · intro hex
      rcases hex with ⟨r, hr, hnone⟩
      have h1 : keyJoined r = none := by simp [keyJoined, monthKeyOf, hnone]
      have h2 : r ∈ sortedJoined db :=
        (List.perm_insertionSort dateLeJ (joinedRows db)).mem_iff.mpr hr
      rw [(optTraverse_eq_none keyJoined (sortedJoined db)).mpr ⟨r, h2, h1⟩]
      rfl
  · intro s hiso
    unfold specISODate at hiso
    split at hiso
    case _ ys ms ds heq =>
      simp only [Bool.and_eq_true, beq_iff_eq, decide_eq_true_eq, List.all_eq_true] at hiso
      obtain ⟨⟨⟨⟨⟨⟨⟨⟨⟨⟨hy4, hyd⟩, hm2⟩, hmd⟩, hd2⟩, hdd⟩, hy1⟩, hm1⟩, hm12⟩, hd1⟩, hdmax⟩ := hiso
      have hyf : yearField ys = true := by
        simp only [yearField, Bool.and_eq_true, beq_iff_eq, List.all_eq_true]
        exact ⟨hy4, hyd⟩
      have hmf : monthField ms = true := by
        simp only [monthField, Bool.and_eq_true, Bool.or_eq_true, beq_iff_eq,
          List.all_eq_true, decide_eq_true_eq]
        exact ⟨⟨⟨Or.inr hm2, hmd⟩, hm1⟩, hm12⟩
      have hmax31 : daysInMonth (digitsToNat ys) (digitsToNat ms) ≤ 31 := by
        unfold daysInMonth
        split_ifs <;> omega
      have hdf : dayField ds = true := by
        simp only [dayField, Bool.and_eq_true, Bool.or_eq_true, beq_iff_eq,
          List.all_eq_true, decide_eq_true_eq]
        exact ⟨⟨⟨Or.inr hd2, hdd⟩, hd1⟩, by omega⟩
      simp only [parseYMD, heq]
      rw [if_pos (by simp [hyf, hmf, hdf])]
      rw [if_pos ⟨hy1, hdmax⟩]
      rfl
    case _ => exact absurd hiso (by simp)

/-- Witness for C8 (amended): the leap day `2024-02-29` is strict ISO and is
accepted; the malformed store fails end to end. -/
theorem c8_witness :
    (specISODate "2024-02-29" = true ∧ (parseYMD "2024-02-29").isSome = true)
    ∧ list_all_catchups
        { students := [{ id := 1, name := "Ana" }],
          catchups := [{ id := 1, student_id := 1, date := "banana", lesson_missed := "L1" }],
          next_student_id := 2, next_catchup_id := 2 } = none := by
  constructor
  · exact ⟨by decide, (c8_malformed_date_failure dbBadDate).2 "2024-02-29" (by decide)⟩
  · exact (c8_malformed_date_failure _).1.mpr
      ⟨{ name := "Ana", date := "banana", student_id := 1, lesson_missed := "L1" },
       by decide, by decide⟩

/-! Claim C9: orphan catch-up rows are stored but reported nowhere. -/

/-- C9: `POST /catchups` durably inserts a catch-up whose `student_id`
matches no student, but such a row is dropped by the inner join, so both
`GET /catchups/all` and `GET /catchups/download/all` are unchanged by it. -/
theorem c9_orphan_catchup_excluded (db : DB) (sid : Nat) (date lesson_missed : String)
    (h : ∀ s ∈ db.students, s.id ≠ sid) :
    (add_catchup db sid date lesson_missed).1.catchups
        = db.catchups ++
          [({ id := db.next_catchup_id, student_id := sid, date := date,
              lesson_missed := lesson_missed } : CatchupRow)]
    ∧ joinedRows (add_catchup db sid date lesson_missed).1 = joinedRows db
    ∧ list_all_catchups (add_catchup db sid date lesson_missed).1 = list_all_catchups db
    ∧ downloadAllRows (add_catchup db sid date lesson_missed).1 = downloadAllRows db := by
  have hfind : db.students.find? (fun s => s.id == sid) = none := by
    rw [List.find?_eq_none]
    intro s hs
    simp only [beq_iff_eq]
    exact h s hs
  have hjoin : joinedRows (add_catchup db sid date lesson_missed).1 = joinedRows db := by
    unfold joinedRows
    show List.filterMap _ (db.catchups ++ [_]) = _
    rw [List.filterMap_append]
    have hstu : (add_catchup db sid date lesson_missed).1.students = db.students := rfl
    rw [hstu]
    have hnew : List.filterMap
        (fun c => (db.students.find? (fun s => s.id == c.student_id)).map
          (fun s => ({ name := s.name, date := c.date, student_id := c.student_id,
                       lesson_missed := c.lesson_missed } : JoinedRow)))
        [({ id := db.next_catchup_id, student_id := sid, date := date,
            lesson_missed := lesson_missed } : CatchupRow)] = [] := by
      simp [List.filterMap, hfind]
    rw [hnew, List.append_nil]
  refine ⟨rfl, hjoin, ?_, ?_⟩
  · unfold list_all_catchups sortedJoined
    rw [hjoin]
  · unfold downloadAllRows downloadAllGroups allEntries sortedJoined
    rw [hjoin]

/-- Witness for C9: inserting a catch-up for the unknown student id 99. -/
theorem c9_witness :
    (add_catchup dbEx 99 "2024-04-01" "L9").1.catchups
        = dbEx.catchups ++
          [({ id := dbEx.next_catchup_id, student_id := 99, date := "2024-04-01",
              lesson_missed := "L9" } : CatchupRow)]
    ∧ joinedRows (add_catchup dbEx 99 "2024-04-01" "L9").1 = joinedRows dbEx
    ∧ list_all_catchups (add_catchup dbEx 99 "2024-04-01" "L9").1 = list_all_catchups dbEx
    ∧ downloadAllRows (add_catchup dbEx 99 "2024-04-01" "L9").1 = downloadAllRows dbEx :=
  c9_orphan_catchup_excluded dbEx 99 "2024-04-01" "L9" (by decide)

/-! Claim C10: read routes leave the store unchanged. -/

/-- C10: each of the five read/report routes passes the store through
untouched, while the two POST routes do mutate it. -/
theorem c10_reads_preserve_store (db : DB) (name : String) :
    (list_students_route db).1 = db
    ∧ (list_catchups_by_name_route db name).1 = db
    ∧ (list_all_catchups_route db).1 = db
    ∧ (download_by_name_route db name).1 = db
    ∧ (download_all_route db).1 = db
    ∧ (∃ db0 nm, (add_student_route db0 nm).1 ≠ db0)
    ∧ (∃ db0 sid d l, (add_catchup_route db0 sid d l).1 ≠ db0) :=
  ⟨rfl, rfl, rfl, rfl, rfl,
   ⟨⟨[], [], 0, 0⟩, "Ana", by decide⟩,
   ⟨⟨[], [], 0, 0⟩, 1, "2024-01-01", "L1", by decide⟩⟩

end Logiscool
